import Mathlib

/-!
Verification of the network configuration backup script (`src/backup.py`).

The development shallowly embeds the parts of the script that the
specification talks about:

* the string processing of the git-commit classification
  (`git_commit_and_push`, lines 108-117);
* the deterministic config filename and the overwriting file write
  (`backup_config`, lines 80-82);
* the per-attempt command sequence sent to a device
  (`backup_config`, lines 64-78);
* the bounded retry loop (`backup_config`, lines 52-93);
* the git pipeline's command strings, ambient-current-directory handling
  and leniency (`git_commit_and_push`, lines 95-128);
* the cooperative (asyncio) scheduling of the per-device tasks and the
  semaphore that bounds concurrent sessions (lines 13-14, 53).
-/

namespace NetBackup

/-- Characters removed by Python `str.strip()` (ASCII whitespace). -/
def isPySpace (c : Char) : Bool :=
  c = ' ' || c = '\t' || c = '\n' || c = '\r' || c = '\x0b' || c = '\x0c'

/-- Python `str.strip()`: drop leading and trailing whitespace. -/
def pyStrip (s : List Char) : List Char :=
  ((s.dropWhile isPySpace).reverse.dropWhile isPySpace).reverse

/-- `re.sub(r'\n+', ',', s)`: each maximal run of newlines becomes one
comma.  The boolean flag records whether the previous character was a
newline (i.e. whether we are inside a run). -/
def collapseNl : Bool → List Char → List Char
  | _, [] => []
  | prev, c :: rest =>
    if c = '\n' then
      if prev then collapseNl true rest else ',' :: collapseNl true rest
    else c :: collapseNl false rest

/-- Does `hay` start with `needle`? -/
def beginsWith : List Char → List Char → Bool
  | _, [] => true
  | [], _ :: _ => false
  | a :: as, b :: bs => a == b && beginsWith as bs

/-- Python `needle in hay` for strings: substring occurrence. -/
def occursIn (needle : List Char) : List Char → Bool
  | [] => beginsWith [] needle
  | c :: t => beginsWith (c :: t) needle || occursIn needle t

/-- The classification of the commit step (spec: CommitOutcome). -/
inductive CommitOutcome where
  | Committed
  | NoChange
  | Failed
deriving DecidableEq

/-- Line 109: `commit_result = re.sub(r'\n+', ',', commit_process.stdout.strip())`. -/
def commitResult (stdout : String) : List Char :=
  collapseNl false (pyStrip stdout.data)

/-- Line 80: `filename = f'...-config.txt'` built from platform, role and
the device address. -/
def mkFilename (platform role ip : String) : String :=
  platform ++ "-" ++ role ++ "-" ++ ip ++ "-config.txt"

/-- Lines 110-117: the if/elif/else over `commit_result` deciding the
outcome of the commit step. -/
def classifyCommit (stdout filename : String) : CommitOutcome :=
  if occursIn "nothing to commit".data (commitResult stdout) then .NoChange
  else if occursIn ("backup " ++ filename).data (commitResult stdout) then .Committed
  else .Failed

/-- C4: for every textual output of the commit process, the commit step is
classified `NoChange` when the text contains "nothing to commit",
otherwise `Committed` when it contains the acknowledgment
"backup " ++ filename, otherwise `Failed`; and since the classifier is the
if/elif/else chain of lines 110-117 exactly one of the three outcomes is
produced. -/
theorem C4_commit_classification (stdout filename : String) :
    (classifyCommit stdout filename = .NoChange ↔
      occursIn "nothing to commit".data (commitResult stdout) = true) ∧
    (classifyCommit stdout filename = .Committed ↔
      (occursIn "nothing to commit".data (commitResult stdout) = false ∧
       occursIn ("backup " ++ filename).data (commitResult stdout) = true)) ∧
    (classifyCommit stdout filename = .Failed ↔
      (occursIn "nothing to commit".data (commitResult stdout) = false ∧
       occursIn ("backup " ++ filename).data (commitResult stdout) = false)) := by
  unfold classifyCommit
  split_ifs with h1 h2 <;> simp_all

/-- A file system maps paths to file contents. -/
abbrev FileSys := String → Option String

/-- Line 81: `open(os.path.join(pro_dir, filename), 'w+')` followed by
`f.write(output)` — a full overwrite of the file at the joined path. -/
def writeConfig (fs : FileSys) (path content : String) : FileSys :=
  fun q => if q = path then some content else fs q

/-- `os.path.join(pro_dir, filename)` for a relative filename. -/
def configPath (proDir platform role ip : String) : String :=
  proDir ++ "/" ++ mkFilename platform role ip

/-- C8: identical (platform, role, address) triples yield the identical
output path inside the repository directory, and writing fully overwrites
any prior content of that file. -/
theorem C8_filename_determinism (p r a q s b proDir : String)
    (fs : FileSys) (old content : String)
    (hp : p = q) (hr : r = s) (ha : a = b) :
    configPath proDir p r a = configPath proDir q s b ∧
    writeConfig (writeConfig fs (configPath proDir p r a) old)
        (configPath proDir p r a) content (configPath proDir p r a) =
      some content := by
  subst hp hr ha
  refine ⟨rfl, ?_⟩
  simp [writeConfig]

/-- Witness for C8 at a concrete device triple. -/
theorem C8_witness :
    configPath "/srv/repo" "huawei" "core" "10.0.0.1" =
      configPath "/srv/repo" "huawei" "core" "10.0.0.1" ∧
    writeConfig
        (writeConfig (fun _ => none)
          (configPath "/srv/repo" "huawei" "core" "10.0.0.1") "old")
        (configPath "/srv/repo" "huawei" "core" "10.0.0.1") "new"
        (configPath "/srv/repo" "huawei" "core" "10.0.0.1") = some "new" :=
  C8_filename_determinism "huawei" "core" "10.0.0.1" "huawei" "core" "10.0.0.1"
    "/srv/repo" (fun _ => none) "old" "new" rfl rfl rfl

/-- Lines 64-78: the sequence of command strings sent over one attempt's
session, as a function of the platform and of whether the initial prompt
contains "Y/N" (the confirmation banner).  The pagination-disable branch
runs only inside the `"Y/N" in conn.find_prompt()` conditional; the fetch
command is sent afterwards in either case. -/
def sessionCommands (platform : String) (promptYN : Bool) : List String :=
  (if promptYN then
      "N" ::
        (if platform = "hp_comware" then ["screen-length disable"]
         else if platform = "huawei" then ["screen-length 0 temporary"]
         else if platform = "ruijie_os" then ["terminal width 256", "terminal length 0"]
         else [])
    else []) ++
  [if platform = "ruijie_os" then "show running-config" else "display current"]

/-- C9 counterexample: on a huawei device whose initial prompt does not
contain "Y/N", no pagination-disable command is issued at all — the
attempt sends only the fetch command, refuting "for every attempt ... the
pagination-disable sequence is issued before the fetch command". -/
theorem C9_counterexample :
    sessionCommands "huawei" false = ["display current"] ∧
    "screen-length 0 temporary" ∉ sessionCommands "huawei" false := by
  decide

/-- C9 amended: when the initial prompt requires confirmation (contains
"Y/N"), a huawei attempt issues its pagination-disable command before the
fetch command `display current`, and a ruijie_os attempt issues its
pagination-disable pair before `show running-config`; without the
confirmation prompt only the fetch command is issued. -/
theorem C9_pagination_amended :
    sessionCommands "huawei" true =
      ["N", "screen-length 0 temporary", "display current"] ∧
    sessionCommands "ruijie_os" true =
      ["N", "terminal width 256", "terminal length 0", "show running-config"] ∧
    sessionCommands "huawei" false = ["display current"] ∧
    sessionCommands "ruijie_os" false = ["show running-config"] := by
  decide

/-- The terminal result of one device's backup for a run. -/
inductive FinalReport where
  | success
  | permanentFailure
deriving DecidableEq

/-- Line 52: `max_retries = 5`. -/
def maxRetries : Nat := 5

/-- Lines 54-93: the `for retry_count in range(max_retries)` loop with a
try/except body; a successful attempt breaks out, a failed attempt falls
through to the next iteration, and exhausting the range leaves the device
permanently failed.  `att i` tells whether the attempt with 0-based index
`i` succeeds; the result is (number of attempts made, final report). -/
def retryLoop (att : Nat → Bool) : Nat → Nat → Nat × FinalReport
  | 0, _ => (0, .permanentFailure)
  | fuel + 1, i =>
    if att i then (1, .success)
    else
      let r := retryLoop att fuel (i + 1)
      (r.1 + 1, r.2)

/-- One device's whole backup: the retry loop entered at attempt 0 with
`max_retries` iterations available. -/
def runDevice (att : Nat → Bool) : Nat × FinalReport :=
  retryLoop att maxRetries 0

/-- C2: a device whose attempt fails on every try is attempted exactly
`maxRetries = 5` times and then reported as a permanent failure; the loop
makes no further attempt for it in that run. -/
theorem C2_retry_bound (att : Nat → Bool) (h : ∀ i, att i = false) :
    runDevice att = (5, .permanentFailure) := by
  have key : ∀ fuel i, retryLoop att fuel i = (fuel, .permanentFailure) := by
    intro fuel
    induction fuel with
    | zero => intro i; rfl
    | succ n ih => intro i; simp [retryLoop, h i, ih (i + 1)]
  simpa [runDevice, maxRetries] using key 5 0

/-- Witness for C2: the always-failing attempt function. -/
theorem C2_witness :
    runDevice (fun _ => false) = (5, FinalReport.permanentFailure) :=
  C2_retry_bound (fun _ => false) (fun _ => rfl)

/-- The per-device error taxonomy of the spec (§7); the script's
`except Exception` catches every one of them alike. -/
inductive BackupError where
  | connectionError
  | protocolError
  | timeoutError
  | fileIOError
  | gitOperationError
  | configurationError
deriving DecidableEq

/-- The log events emitted by `backup_config` (lines 83-93). -/
inductive LogEvent where
  | errorBackingUp (ip : String) (e : BackupError)
  | retrying (ip : String) (attempt total : Nat)
  | maxRetriesReached (ip : String)
  | configSaved (filename : String)
deriving DecidableEq

/-- Lines 86-93: the log events emitted by the except-branch when the
attempt with 0-based index `i` fails with error `e`: always the error
line with the device address; then, when another attempt remains, the
retry warning carrying the 1-based attempt count, else the max-retries
line. -/
def failureLogs (ip : String) (e : BackupError) (i : Nat) : List LogEvent :=
  .errorBackingUp ip e ::
    (if i < maxRetries - 1 then [.retrying ip (i + 1) maxRetries]
     else [.maxRetriesReached ip])

/-- Does a log event mention the device identity `ip`? -/
def mentionsDevice (ip : String) : LogEvent → Bool
  | .errorBackingUp j _ => j == ip
  | .retrying j _ _ => j == ip
  | .maxRetriesReached j => j == ip
  | .configSaved _ => false

/-- Does a log event carry an attempt count? Only the retry warning
(line 89-91) interpolates `retry_count+1`. -/
def carriesAttemptCount : LogEvent → Bool
  | .retrying _ _ _ => true
  | _ => false

/-- C7 counterexample: when the final (fifth) attempt fails, the emitted
log events are the error line and the max-retries line, neither of which
carries an attempt count — so not every caught error is "logged with
device identity and attempt count" as the claim states. -/
theorem C7_counterexample :
    ¬ ∃ ev ∈ failureLogs "10.0.0.1" BackupError.connectionError 4,
        carriesAttemptCount ev = true := by
  decide

/-- C7 amended: every failed attempt is caught and logged with the device
identity; every non-final failed attempt additionally logs the 1-based
attempt count; the final failed attempt logs a max-retries line with the
device identity; a device is attempted at most `maxRetries` times; and
changing one device's attempt outcomes never changes any sibling
device's result (the orchestrator maps each device to its own
independent retry loop, line 148 gathers them without cancellation). -/
theorem C7_error_isolation_amended :
    (∀ ip e i, LogEvent.errorBackingUp ip e ∈ failureLogs ip e i ∧
        mentionsDevice ip (LogEvent.errorBackingUp ip e) = true) ∧
    (∀ ip e i, i < maxRetries - 1 →
        LogEvent.retrying ip (i + 1) maxRetries ∈ failureLogs ip e i) ∧
    (∀ ip e, LogEvent.maxRetriesReached ip ∈
        failureLogs ip e (maxRetries - 1)) ∧
    (∀ att : Nat → Bool, (runDevice att).1 ≤ maxRetries) ∧
    (∀ (devices : List String) (att att' : String → Nat → Bool) (d : String),
      (∀ d', d' ≠ d → att d' = att' d') →
      devices.map (fun ip => if ip = d then none else some (runDevice (att ip))) =
        devices.map (fun ip => if ip = d then none else some (runDevice (att' ip)))) := by
  refine ⟨?_, ?_, ?_, ?_, ?_⟩
  · intro ip e i
    exact ⟨List.mem_cons_self _ _, by simp [mentionsDevice]⟩
  · intro ip e i hi
    simp [failureLogs, hi]
  · intro ip e
    simp [failureLogs]
  · intro att
    have key : ∀ fuel i, (retryLoop att fuel i).1 ≤ fuel := by
      intro fuel
      induction fuel with
      | zero => intro i; simp [retryLoop]
      | succ n ih =>
        intro i
        cases hatt : att i with
        | true => simp [retryLoop, hatt]
        | false =>
          simp only [retryLoop, hatt, Bool.false_eq_true, if_false]
          have := ih (i + 1)
          omega
    exact key maxRetries 0
  · intro devices att att' d hagree
    apply List.map_congr_left
    intro ip _
    by_cases hip : ip = d
    · simp [hip]
    · simp [hip, hagree ip hip]

/-- Witness for C7: the retry warning with attempt count 1 is among the
logs of the first failed attempt. -/
theorem C7_witness :
    LogEvent.retrying "10.0.0.1" 1 maxRetries ∈
      failureLogs "10.0.0.1" BackupError.timeoutError 0 :=
  C7_error_isolation_amended.2.1 "10.0.0.1" BackupError.timeoutError 0 (by decide)

/-- An absolute path, as its list of components from the root. -/
abbrev Path := List String

/-- Line 128: `os.chdir('..')` resolves against the current directory and
moves to its parent. -/
def chdirUp (cwd : Path) : Path := cwd.dropLast

/-- The observable result of one `subprocess.run` call. -/
structure ProcResult where
  returncode : Int
  stdout : String
deriving DecidableEq

/-- One external git invocation: the shell command line and the ambient
current directory it runs in (the `subprocess.run(..., shell=True)` calls
pass no `cwd` argument, lines 102, 108, 119). -/
structure GitStep where
  cmd : String
  dir : Path
deriving DecidableEq

/-- Line 98: `add_command = f'git add ...'` — no repository path in the
command line. -/
def gitAddCmd (filename : String) : String := "git add " ++ filename

/-- Line 99: the commit command with the message embedding the filename
and a timestamp — no repository path in the command line. -/
def gitCommitCmd (filename timestamp : String) : String :=
  "git commit -m \"backup " ++ filename ++ " " ++ timestamp ++ "\""

/-- Line 100: `push_command = 'git push'` — no repository path. -/
def gitPushCmd : String := "git push"

/-- Everything observable about one execution of `git_commit_and_push`. -/
structure PipelineRun where
  steps : List GitStep
  outcome : Option CommitOutcome
  gitErrors : List String
  finalCwd : Path
  files : FileSys

/-- The three git invocations, all run in the ambient directory `cwd1`. -/
def pipelineSteps (filename timestamp : String) (cwd1 : Path) : List GitStep :=
  [⟨gitAddCmd filename, cwd1⟩,
   ⟨gitCommitCmd filename timestamp, cwd1⟩,
   ⟨gitPushCmd, cwd1⟩]

/-- Lines 95-128: `git_commit_and_push(filename, pro_dir)`.  The function
first does `os.chdir(pro_dir)` (an absolute path, so the previous cwd
`cwd0` is discarded); the try-body then runs the three git commands in
that ambient directory.  A non-zero returncode of the add or push step is
only logged (lines 103-106, 120-123); the commit step's stdout is
classified (lines 109-117).  `raiseAfter = some k` models an exception
escaping the try-body after `k` of the three commands completed; the
`finally` clause (line 127-128) does `os.chdir('..')` in every case.  The
function performs no file write or delete, so the working-tree file map
`fs` passes through unchanged. -/
def gitCommitAndPush (proDir : Path) (filename timestamp : String)
    (addRes commitRes pushRes : ProcResult) (raiseAfter : Option Nat)
    (cwd0 : Path) (fs : FileSys) : PipelineRun :=
  let cwd1 := proDir
  match raiseAfter with
  | some k =>
    { steps := (pipelineSteps filename timestamp cwd1).take k
      outcome := none
      gitErrors := []
      finalCwd := chdirUp cwd1
      files := fs }
  | none =>
    { steps := pipelineSteps filename timestamp cwd1
      outcome := some (classifyCommit commitRes.stdout filename)
      gitErrors :=
        (if addRes.returncode ≠ 0 then [gitAddCmd filename] else []) ++
        (if pushRes.returncode ≠ 0 then [gitPushCmd] else [])
      finalCwd := chdirUp cwd1
      files := fs }

/-- C5: in the exception-free execution of the pipeline, a non-zero exit
of the stage step does not abort the pipeline — the commit and push
commands still run; the push runs even when the commit step classified
as `Failed` (which is surfaced as the outcome, not conflated with
success); and neither failure removes or rolls back the config file
already on disk: the file map is returned unchanged. -/
theorem C5_lenient_pipeline (proDir : Path) (filename timestamp : String)
    (addRes commitRes pushRes : ProcResult) (cwd0 : Path) (fs : FileSys)
    (hadd : addRes.returncode ≠ 0)
    (hfail : classifyCommit commitRes.stdout filename = .Failed)
    (hpush : pushRes.returncode ≠ 0) :
    (gitCommitAndPush proDir filename timestamp addRes commitRes pushRes none
        cwd0 fs).steps.map GitStep.cmd =
      [gitAddCmd filename, gitCommitCmd filename timestamp, gitPushCmd] ∧
    (gitCommitAndPush proDir filename timestamp addRes commitRes pushRes none
        cwd0 fs).outcome = some .Failed ∧
    ∀ p, (gitCommitAndPush proDir filename timestamp addRes commitRes pushRes
        none cwd0 fs).files p = fs p := by
  refine ⟨rfl, ?_, fun p => rfl⟩
  simp [gitCommitAndPush, hfail]

/-- Witness for C5: a stage step exiting 1, a commit whose stdout matches
no acknowledgment, and a push exiting 1, over a file system holding the
just-written config file. -/
theorem C5_witness :
    (gitCommitAndPush ["", "srv", "repo"] "f.txt" "ts" ⟨1, ""⟩
        ⟨1, "error: pathspec"⟩ ⟨1, ""⟩ none ["", "srv"]
        (fun _ => some "cfg")).steps.map GitStep.cmd =
      [gitAddCmd "f.txt", gitCommitCmd "f.txt" "ts", gitPushCmd] ∧
    (gitCommitAndPush ["", "srv", "repo"] "f.txt" "ts" ⟨1, ""⟩
        ⟨1, "error: pathspec"⟩ ⟨1, ""⟩ none ["", "srv"]
        (fun _ => some "cfg")).outcome = some CommitOutcome.Failed ∧
    ∀ p, (gitCommitAndPush ["", "srv", "repo"] "f.txt" "ts" ⟨1, ""⟩
        ⟨1, "error: pathspec"⟩ ⟨1, ""⟩ none ["", "srv"]
        (fun _ => some "cfg")).files p = (fun _ => some "cfg") p :=
  C5_lenient_pipeline ["", "srv", "repo"] "f.txt" "ts" ⟨1, ""⟩
    ⟨1, "error: pathspec"⟩ ⟨1, ""⟩ ["", "srv"] (fun _ => some "cfg")
    (by decide) (by decide) (by decide)

/-- C6 counterexample: executing the pipeline from the current directory
`["", "other"]` runs every git command in the repository directory — the
ambient process current directory was mutated — and returns with the cwd
at the repository's parent, not at `["", "other"]`; moreover the command
lines contain no repository-path argument (the add command is literally
`git add f.txt`).  This refutes "never reads or mutates the ambient
process-global current directory" and "carries an explicit
repository-path argument". -/
theorem C6_counterexample :
    (gitCommitAndPush ["", "home", "script", "repo"] "f.txt" "ts" ⟨0, "ok"⟩
        ⟨0, "ok"⟩ ⟨0, "ok"⟩ none ["", "other"] (fun _ => none)).steps.map
        GitStep.dir =
      [["", "home", "script", "repo"], ["", "home", "script", "repo"],
       ["", "home", "script", "repo"]] ∧
    (gitCommitAndPush ["", "home", "script", "repo"] "f.txt" "ts" ⟨0, "ok"⟩
        ⟨0, "ok"⟩ ⟨0, "ok"⟩ none ["", "other"] (fun _ => none)).finalCwd ≠
      ["", "other"] ∧
    gitAddCmd "f.txt" = "git add f.txt" ∧
    gitPushCmd = "git push" ∧
    occursIn "repo".data (gitAddCmd "f.txt").data = false := by
  refine ⟨rfl, by decide, rfl, rfl, by decide⟩

/-- C6 amended: every git invocation of the pipeline relies on the ambient
current directory instead of an explicit repository-path argument: the
pipeline chdirs to the repository directory (an absolute path), each of
the three commands runs in that ambient directory with a command line
built only from the filename and timestamp, and on return the process
current directory has been changed to the repository's parent. -/
theorem C6_ambient_cwd_amended (proDir : Path) (filename timestamp : String)
    (addRes commitRes pushRes : ProcResult) (cwd0 : Path) (fs : FileSys) :
    (gitCommitAndPush proDir filename timestamp addRes commitRes pushRes none
        cwd0 fs).steps.map GitStep.dir = [proDir, proDir, proDir] ∧
    (gitCommitAndPush proDir filename timestamp addRes commitRes pushRes none
        cwd0 fs).steps.map GitStep.cmd =
      [gitAddCmd filename, gitCommitCmd filename timestamp, gitPushCmd] ∧
    (gitCommitAndPush proDir filename timestamp addRes commitRes pushRes none
        cwd0 fs).finalCwd = proDir.dropLast := by
  exact ⟨rfl, rfl, rfl⟩

/-- C10: whether the try-body completes normally or raises after any
number of completed steps, the pipeline returns with the process current
directory at the parent of the repository directory (the script
directory): the entry `os.chdir(pro_dir)` is absolute and the finally
clause always does `os.chdir('..')` from there. -/
theorem C10_cwd_restored (scriptDir : Path) (pdir : String)
    (filename timestamp : String) (addRes commitRes pushRes : ProcResult)
    (raiseAfter : Option Nat) (cwd0 : Path) (fs : FileSys) :
    (gitCommitAndPush (scriptDir ++ [pdir]) filename timestamp addRes
        commitRes pushRes raiseAfter cwd0 fs).finalCwd = scriptDir := by
  cases raiseAfter <;>
    simp [gitCommitAndPush, chdirUp, List.dropLast_concat]

/-- The phase of one device task with respect to the semaphore and its
device session: not yet started; waiting on `semaphore` (line 53);
holding a semaphore slot, with or without an open `ConnectHandler`
session (lines 64-84 run inside the `async with`); finished (slot
released). -/
inductive TState where
  | pending
  | waiting
  | holding (sessionOpen : Bool)
  | finished
deriving DecidableEq

/-- Does the task hold a semaphore slot? -/
def isHolding : TState → Bool
  | .holding _ => true
  | _ => false

/-- Does the task have an open device session? -/
def isOpenSession : TState → Bool
  | .holding b => b
  | _ => false

/-- Number of tasks currently holding a semaphore slot. -/
def countHolding (s : List TState) : Nat := s.countP isHolding

/-- Number of concurrently open device sessions. -/
def countOpen (s : List TState) : Nat := s.countP isOpenSession

/-- One scheduler step of the run with semaphore capacity `K`
(`asyncio.Semaphore(MAX_CONCURRENT_BACKUPS)`, lines 13-14).  `acquireSlot`
models the semaphore acquire: it fires only when fewer than `K` slots are
held.  Sessions open and close only while the slot is held, because
`ConnectHandler` is entered and left inside the `async with semaphore`
block, and the slot is released only after the session is closed. -/
inductive BStep (K : Nat) : List TState → List TState → Prop
  | start (s : List TState) (i : Nat) (h : i < s.length) :
      s.get ⟨i, h⟩ = .pending → BStep K s (s.set i .waiting)
  | acquireSlot (s : List TState) (i : Nat) (h : i < s.length) :
      s.get ⟨i, h⟩ = .waiting → countHolding s < K →
      BStep K s (s.set i (.holding false))
  | openSession (s : List TState) (i : Nat) (h : i < s.length) :
      s.get ⟨i, h⟩ = .holding false → BStep K s (s.set i (.holding true))
  | closeSession (s : List TState) (i : Nat) (h : i < s.length) :
      s.get ⟨i, h⟩ = .holding true → BStep K s (s.set i (.holding false))
  | finish (s : List TState) (i : Nat) (h : i < s.length) :
      s.get ⟨i, h⟩ = .holding false → BStep K s (s.set i .finished)

/-- States reachable in a run with `N` devices (all tasks start pending)
and semaphore capacity `K`. -/
def Reachable (K N : Nat) (s : List TState) : Prop :=
  Relation.ReflTransGen (BStep K) (List.replicate N .pending) s

/-- Setting one position exchanges its contribution to `countP`. -/
theorem countP_set_exchange {α : Type} (p : α → Bool) :
    ∀ (s : List α) (i : Nat) (h : i < s.length) (v : α),
      (s.set i v).countP p + (if p (s.get ⟨i, h⟩) then 1 else 0) =
        s.countP p + (if p v then 1 else 0) := by
  intro s
  induction s with
  | nil => intro i h; simp at h
  | cons a t ih =>
    intro i h v
    cases i with
    | zero =>
      simp only [List.set, List.get, List.countP_cons]
      omega
    | succ j =>
      have hj : j < t.length := by simpa using h
      simp only [List.set, List.get, List.countP_cons]
      have := ih j hj v
      omega

/-- Every step preserves the bound on held slots. -/
theorem countHolding_le_of_step {K : Nat} {s t : List TState}
    (hs : BStep K s t) (hb : countHolding s ≤ K) : countHolding t ≤ K := by
  cases hs with
  | start i h hget =>
    have := countP_set_exchange isHolding s i h .waiting
    rw [hget] at this
    simp [isHolding] at this
    unfold countHolding at hb ⊢
    omega
  | acquireSlot i h hget hlt =>
    have := countP_set_exchange isHolding s i h (.holding false)
    rw [hget] at this
    simp [isHolding] at this
    unfold countHolding at hlt ⊢
    omega
  | openSession i h hget =>
    have := countP_set_exchange isHolding s i h (.holding true)
    rw [hget] at this
    simp [isHolding] at this
    unfold countHolding at hb ⊢
    omega
  | closeSession i h hget =>
    have := countP_set_exchange isHolding s i h (.holding false)
    rw [hget] at this
    simp [isHolding] at this
    unfold countHolding at hb ⊢
    omega
  | finish i h hget =>
    have := countP_set_exchange isHolding s i h .finished
    rw [hget] at this
    simp [isHolding] at this
    unfold countHolding at hb ⊢
    omega

/-- C3: at every reachable point of every run, for every number `N` of
devices, the number of concurrently open device sessions never exceeds
the semaphore capacity `K` (the configured limiter, default 10). -/
theorem C3_semaphore_bound (K N : Nat) (s : List TState)
    (h : Reachable K N s) : countOpen s ≤ K := by
  have hold : countHolding s ≤ K := by
    induction h with
    | refl =>
      have : countHolding (List.replicate N TState.pending) = 0 := by
        apply List.countP_eq_zero.mpr
        intro a ha
        rw [List.eq_of_mem_replicate ha]
        simp [isHolding]
      omega
    | tail _ hstep ih => exact countHolding_le_of_step hstep ih
  have mono : countOpen s ≤ countHolding s := by
    apply List.countP_mono_left
    intro x _ hx
    cases x <;> simp_all [isOpenSession, isHolding]
  omega

/-- Witness for C3: after starting, acquiring a slot and opening a session for
the first of two tasks, one session is open, within the default capacity
of 10. -/
theorem C3_witness :
    countOpen [TState.holding true, TState.pending] ≤ 10 :=
  C3_semaphore_bound 10 2 [TState.holding true, TState.pending]
    (Relation.ReflTransGen.tail
      (Relation.ReflTransGen.tail
        (Relation.ReflTransGen.tail Relation.ReflTransGen.refl
          (BStep.start (List.replicate 2 .pending) 0 (by decide) (by decide)))
        (BStep.acquireSlot [TState.waiting, TState.pending] 0 (by decide) (by decide)
          (by decide)))
      (BStep.openSession [TState.holding false, TState.pending] 0 (by decide)
        (by decide)))

/-- A device row of the inventory (address, platform, role; credentials
do not influence the scheduling model). -/
structure Device where
  ip : String
  platform : String
  role : String
deriving DecidableEq

/-- The config filename of a device (line 80). -/
def deviceFile (d : Device) : String := mkFilename d.platform d.role d.ip

/-- The externally visible actions of one device task. -/
inductive Act where
  | acquire (d : Device)
  | connect (d : Device)
  | fetch (d : Device)
  | write (filename : String)
  | stage (filename : String)
  | commitFile (filename : String)
  | pushFile (filename : String)
  | attemptFailed (d : Device)
  | release (d : Device)
deriving DecidableEq

/-- Is the action one of the three git steps? -/
def isGitAct : Act → Bool
  | .stage _ => true
  | .commitFile _ => true
  | .pushFile _ => true
  | _ => false

/-- The git transaction of one file.  The body of `git_commit_and_push`
(lines 95-128) contains no await expression — `subprocess.run` is a
blocking call — so under asyncio's cooperative scheduler the three git
steps run as one uninterruptible block. -/
def gitBlock (d : Device) : List Act :=
  [.stage (deviceFile d), .commitFile (deviceFile d), .pushFile (deviceFile d)]

/-- The blocks of a successful attempt: the blocking netmiko session and
file write (lines 64-83) form one block, then the awaited (but
non-yielding) git pipeline forms the git block. -/
def okAttemptBlocks (d : Device) : List (List Act) :=
  [[.connect d, .fetch d, .write (deviceFile d)], gitBlock d]

/-- The block of a failed attempt: the exception is raised and caught
without reaching the git pipeline. -/
def failAttemptBlocks (d : Device) : List (List Act) :=
  [[.connect d, .attemptFailed d]]

/-- The blocks produced by the retry loop (lines 54-93): failed attempts
are followed by further attempts while fuel remains; the first success
breaks out of the loop. -/
def retryBlocks (d : Device) (att : Nat → Bool) : Nat → Nat → List (List Act)
  | 0, _ => []
  | fuel + 1, i =>
    if att i then okAttemptBlocks d
    else failAttemptBlocks d ++ retryBlocks d att fuel (i + 1)

/-- The whole task of one device (lines 51-93): acquire the semaphore
slot (the only other suspension point), run the retry loop, release. -/
def backupTask (d : Device) (att : Nat → Bool) : List (List Act) :=
  [[.acquire d]] ++ retryBlocks d att maxRetries 0 ++ [[.release d]]

/-- A cooperative schedule: the scheduler repeatedly picks a task that
still has blocks and runs its next block to completion (asyncio switches
between tasks only at suspension points, i.e. between blocks).  `Sched
qs out` says `out` is a possible order in which the blocks of the task
queues `qs` execute. -/
inductive Sched {α : Type} : List (List α) → List α → Prop
  | done (qs : List (List α)) : (∀ q ∈ qs, q = []) → Sched qs []
  | step (qs : List (List α)) (i : Nat) (h : i < qs.length) (b : α)
      (rest : List α) (out : List α) :
      qs.get ⟨i, h⟩ = b :: rest → Sched (qs.set i rest) out →
      Sched qs (b :: out)

/-- Every block of every task queue appears in the schedule's output. -/
theorem Sched.mem_out {α : Type} {qs : List (List α)} {out : List α}
    (hs : Sched qs out) :
    ∀ (i : Nat) (h : i < qs.length) (b : α), b ∈ qs.get ⟨i, h⟩ → b ∈ out := by
  induction hs with
  | done qs hq =>
    intro i h b hb
    rw [hq _ (List.get_mem qs i h)] at hb
    simp at hb
  | step qs j hj c rest out hget _ ih =>
    intro i h b hb
    by_cases hij : i = j
    · subst hij
      rw [hget] at hb
      rcases List.mem_cons.mp hb with rfl | hb'
      · exact List.mem_cons_self _ _
      · have hlen : i < (qs.set i rest).length := by
          rw [List.length_set]; exact h
        have hget2 : (qs.set i rest).get ⟨i, hlen⟩ = rest := by
          simp [List.get_eq_getElem, List.getElem_set_self]
        refine List.mem_cons_of_mem _ (ih i hlen b ?_)
        rw [hget2]
        exact hb'
    · have hlen : i < (qs.set j rest).length := by
        rw [List.length_set]; exact h
      have hget2 : (qs.set j rest).get ⟨i, hlen⟩ = qs.get ⟨i, h⟩ := by
        simp [List.get_eq_getElem]
        exact List.getElem_set_ne (fun hji => hij hji.symm) _
      exact List.mem_cons_of_mem _ (ih i hlen b (hget2 ▸ hb))

/-- Every block in the schedule's output comes from one of the task
queues. -/
theorem Sched.out_mem {α : Type} {qs : List (List α)} {out : List α}
    (hs : Sched qs out) : ∀ b ∈ out, ∃ q ∈ qs, b ∈ q := by
  induction hs with
  | done qs hq => simp
  | step qs j hj c rest out hget _ ih =>
    intro b hb
    rcases List.mem_cons.mp hb with rfl | hb'
    · exact ⟨qs.get ⟨j, hj⟩, List.get_mem qs j hj, hget ▸ List.mem_cons_self _ _⟩
    · obtain ⟨q, hq, hbq⟩ := ih b hb'
      rcases List.mem_or_eq_of_mem_set hq with hq' | rfl
      · exact ⟨q, hq', hbq⟩
      · exact ⟨qs.get ⟨j, hj⟩, List.get_mem qs j hj,
          hget ▸ List.mem_cons_of_mem _ hbq⟩

/-- If some attempt within the fuel succeeds, the retry loop reaches the
git transaction block. -/
theorem gitBlock_mem_retryBlocks (d : Device) (att : Nat → Bool) :
    ∀ (fuel i : Nat), (∃ j, j < fuel ∧ att (i + j) = true) →
      gitBlock d ∈ retryBlocks d att fuel i := by
  intro fuel
  induction fuel with
  | zero =>
    intro i ⟨j, hj, _⟩
    omega
  | succ n ih =>
    intro i ⟨j, hj, hatt⟩
    cases h0 : att i with
    | true =>
      simp [retryBlocks, h0, okAttemptBlocks]
    | false =>
      rw [retryBlocks, if_neg (by simp [h0])]
      refine List.mem_append.mpr (Or.inr (ih (i + 1) ?_))
      cases j with
      | zero =>
        rw [Nat.add_zero] at hatt
        rw [h0] at hatt
        exact absurd hatt (by simp)
      | succ m =>
        refine ⟨m, by omega, ?_⟩
        have : i + 1 + m = i + (m + 1) := by omega
        rw [this]
        exact hatt

/-- Within one task, a block containing any git action is the complete
git transaction block of that task's file. -/
theorem gitAct_block_eq_retry (d : Device) (att : Nat → Bool) :
    ∀ (fuel i : Nat) (b : List Act), b ∈ retryBlocks d att fuel i →
      ∀ x ∈ b, isGitAct x = true → b = gitBlock d := by
  intro fuel
  induction fuel with
  | zero =>
    intro i b hb
    simp [retryBlocks] at hb
  | succ n ih =>
    intro i b hb x hx hgit
    rw [retryBlocks] at hb
    cases h0 : att i with
    | true =>
      rw [if_pos (by simp [h0])] at hb
      simp only [okAttemptBlocks, List.mem_cons, List.not_mem_nil,
        or_false] at hb
      rcases hb with rfl | rfl
      · simp only [List.mem_cons, List.not_mem_nil, or_false] at hx
        rcases hx with rfl | rfl | rfl <;> simp [isGitAct] at hgit
      · rfl
    | false =>
      rw [if_neg (by simp [h0])] at hb
      rcases List.mem_append.mp hb with hb' | hb'
      · simp only [failAttemptBlocks, List.mem_cons, List.not_mem_nil,
          or_false] at hb'
        subst hb'
        simp only [List.mem_cons, List.not_mem_nil, or_false] at hx
        rcases hx with rfl | rfl <;> simp [isGitAct] at hgit
      · exact ih (i + 1) b hb' x hx hgit

/-- Within one whole device task, a block containing any git action is
the complete git transaction block of that device's file. -/
theorem gitAct_block_eq_task (d : Device) (att : Nat → Bool)
    (b : List Act) (hb : b ∈ backupTask d att)
    (x : Act) (hx : x ∈ b) (hgit : isGitAct x = true) : b = gitBlock d := by
  unfold backupTask at hb
  rcases List.mem_append.mp hb with hb' | hb'
  · rcases List.mem_append.mp hb' with hb'' | hb''
    · simp only [List.mem_cons, List.not_mem_nil, or_false] at hb''
      subst hb''
      simp only [List.mem_cons, List.not_mem_nil, or_false] at hx
      subst hx
      simp [isGitAct] at hgit
    · exact gitAct_block_eq_retry d att maxRetries 0 b hb'' x hx hgit
  · simp only [List.mem_cons, List.not_mem_nil, or_false] at hb'
    subst hb'
    simp only [List.mem_cons, List.not_mem_nil, or_false] at hx
    subst hx
    simp [isGitAct] at hgit

/-- C1: in every cooperative schedule of the per-device tasks, the git
transaction is atomic with respect to the other devices' transactions.
First conjunct: any scheduled block containing a git action is the
complete stage/commit/push transaction block of one of the devices, so
two files' git steps can never interleave.  Second conjunct: for every
device with a successful attempt, its stage, commit and push actions
appear consecutively in the flattened action trace. -/
theorem C1_git_atomicity (devices : List Device) (att : Device → Nat → Bool)
    (blocksOut : List (List Act))
    (hs : Sched (devices.map (fun d => backupTask d (att d))) blocksOut) :
    (∀ b ∈ blocksOut, ∀ x ∈ b, isGitAct x = true →
      ∃ d ∈ devices, b = gitBlock d) ∧
    (∀ d ∈ devices, (∃ j, j < maxRetries ∧ att d j = true) →
      ∃ pre post, blocksOut.flatten =
        pre ++ [Act.stage (deviceFile d), Act.commitFile (deviceFile d),
                Act.pushFile (deviceFile d)] ++ post) := by
  constructor
  · intro b hb x hx hgit
    obtain ⟨q, hq, hbq⟩ := Sched.out_mem hs b hb
    obtain ⟨d, hd, rfl⟩ := List.mem_map.mp hq
    exact ⟨d, hd, gitAct_block_eq_task d (att d) b hbq x hx hgit⟩
  · intro d hd hsucc
    have hmem_task : gitBlock d ∈ backupTask d (att d) := by
      unfold backupTask
      refine List.mem_append.mpr (Or.inl (List.mem_append.mpr (Or.inr ?_)))
      apply gitBlock_mem_retryBlocks
      simpa using hsucc
    have hq : backupTask d (att d) ∈ devices.map (fun d => backupTask d (att d)) :=
      List.mem_map_of_mem _ hd
    obtain ⟨n, hn⟩ := List.get_of_mem hq
    have hout : gitBlock d ∈ blocksOut :=
      Sched.mem_out hs n.1 n.2 (gitBlock d) (by rw [hn]; exact hmem_task)
    obtain ⟨pre, post, hsplit⟩ := List.append_of_mem hout
    refine ⟨pre.flatten, post.flatten, ?_⟩
    rw [hsplit]
    simp [gitBlock, List.flatten_append]

/-- The sequential schedule that runs a single task's blocks in order. -/
theorem sched_single {α : Type} : ∀ (q : List α), Sched [q] q
  | [] => .done _ (by simp)
  | b :: rest => .step [b :: rest] 0 (by simp) b rest rest rfl (sched_single rest)

/-- A demonstration device for the witnesses. -/
def demoDevice : Device := ⟨"10.0.0.1", "huawei", "core"⟩

/-- Witness for C1: a run of one device whose first attempt succeeds,
under the sequential schedule; its stage/commit/push actions are
consecutive in the trace. -/
theorem C1_witness :
    ∃ pre post,
      (backupTask demoDevice (fun _ => true)).flatten =
        pre ++ [Act.stage (deviceFile demoDevice),
                Act.commitFile (deviceFile demoDevice),
                Act.pushFile (deviceFile demoDevice)] ++ post :=
  (C1_git_atomicity [demoDevice] (fun _ _ => true)
      (backupTask demoDevice (fun _ => true))
      (sched_single (backupTask demoDevice (fun _ => true)))).2
    demoDevice (List.mem_singleton.mpr rfl) ⟨0, by decide, rfl⟩

end NetBackup
